import Mathlib

/- Verification of the batching SQS producer core (the batch_sqs_broker
   package): a shallow embedding of its size accounting, batch splitting,
   retry queue, configuration resolution and lifecycle operations, with
   theorems for the properties stated in the specification.  The broker
   module itself ships outside this tree, so each operation is modelled
   from the specification text and pinned down by the behaviour the unit
   tests in tests/test_batch_broker.py demand. -/

/-- Modelled from the spec (section 3, missing broker module): an Entry is an
opaque producer record with an `Id` string and a `MessageBody` string whose
UTF-8 byte length is the dominant size term. -/
structure Entry where
  id : String
  body : String
deriving DecidableEq

/-- Modelled from the spec (section 4.B, missing broker module): the encoded
byte size of an entry is the UTF-8 byte length of its body; the optional
attribute accounting is not implemented by the source tests. -/
def entry_bytes (e : Entry) : Nat :=
  e.body.utf8ByteSize

/-- Modelled from the spec (GlobalConfig): per-entry byte cap, 256 KiB. -/
def max_entry_bytes : Nat := 256 * 1024

/-- Modelled from the spec (GlobalConfig): per-batch byte cap, 256 KiB. -/
def max_batch_bytes : Nat := 256 * 1024

/-- Modelled from the spec (section 4.B, missing broker module): the message
size check `_check_message_size` accepts an entry exactly when its encoded
size does not exceed the per-entry cap. -/
def check_message_size (e : Entry) : Bool :=
  entry_bytes e ≤ max_entry_bytes

/-- Modelled from the spec (section 4.C, missing broker module): the greedy
splitting loop of `_split_oversized_batch`.  State: remaining input, the
current batch being filled, its running byte count, the sealed sub-batches
and the oversized entries collected so far. -/
def split_go : List Entry → List Entry → Nat → List (List Entry) →
    List Entry → List (List Entry) × List Entry
  | [], current, _, batches, oversized =>
    (if current = [] then batches else batches ++ [current], oversized)
  | e :: rest, current, cur_bytes, batches, oversized =>
    if max_entry_bytes < entry_bytes e then
      split_go rest current cur_bytes batches (oversized ++ [e])
    else if current.length = 10 ∨ max_batch_bytes < cur_bytes + entry_bytes e then
      split_go rest [e] (entry_bytes e) (batches ++ [current]) oversized
    else
      split_go rest (current ++ [e]) (cur_bytes + entry_bytes e) batches oversized

/-- Modelled from the spec (section 4.C, missing broker module):
`_split_oversized_batch` partitions an ordered list of entries into sendable
sub-batches (at most 10 entries and `max_batch_bytes` body bytes each) and
the list of individually oversized entries. -/
def split_oversized_batch (entries : List Entry) : List (List Entry) × List Entry :=
  split_go entries [] 0 [] []

/-- Modelled from the spec (section 3, missing broker module): the
`FailedMessage` dataclass: the failed entry, a retry count defaulting to 0,
and monotonic timestamps of the first and most recent failure (seconds,
embedded as rationals). -/
structure FailedMessage where
  entry : Entry
  retry_count : Nat := 0
  first_failure_time : ℚ
  last_failure_time : ℚ
deriving DecidableEq

/-- Modelled from the spec (RetryQueue, missing broker module): a failed
message is eligible to re-enter the buffer once
`now - last_failure_time ≥ 2 ^ retry_count` seconds. -/
def backoff_elapsed (now : ℚ) (fm : FailedMessage) : Bool :=
  (2 : ℚ) ^ fm.retry_count ≤ now - fm.last_failure_time

/-- Modelled from the spec (section 4.E, missing broker module) and pinned by
tests/test_batch_broker.py: one scan of `_retry_failed_messages` over the
retry queue.  A message whose retry count has reached `max_retry_attempts`
is dropped and counted exhausted; otherwise, if its backoff has elapsed and
the buffer is below `buffer_cap`, its entry is appended to the buffer;
otherwise it stays in the retry queue unchanged.  Returns the remaining
retry queue, the buffer, and the exhausted counter. -/
def retry_failed_messages (max_retry_attempts buffer_cap : Nat) (now : ℚ) :
    List FailedMessage → List Entry → Nat →
    List FailedMessage × List Entry × Nat
  | [], buffer, exhausted => ([], buffer, exhausted)
  | fm :: rest, buffer, exhausted =>
    if max_retry_attempts ≤ fm.retry_count then
      retry_failed_messages max_retry_attempts buffer_cap now rest buffer (exhausted + 1)
    else if backoff_elapsed now fm then
      if buffer.length < buffer_cap then
        retry_failed_messages max_retry_attempts buffer_cap now rest (buffer ++ [fm.entry]) exhausted
      else
        ((fm :: (retry_failed_messages max_retry_attempts buffer_cap now rest buffer exhausted).1),
          (retry_failed_messages max_retry_attempts buffer_cap now rest buffer exhausted).2)
    else
      ((fm :: (retry_failed_messages max_retry_attempts buffer_cap now rest buffer exhausted).1),
        (retry_failed_messages max_retry_attempts buffer_cap now rest buffer exhausted).2)

/-- Modelled from the spec (section 4.E, missing broker module): recording one
failed entry into the retry queue.  If a message with the same entry id is
already present, its retry count is bumped and its last failure time
refreshed; otherwise a new FailedMessage is inserted counting the
just-happened failure, i.e. with `retry_count = 1`.  A post-increment count
above `max_retry_attempts` drops the message and bumps the exhausted
counter. -/
def record_failure (max_retry_attempts : Nat) (now : ℚ) (e : Entry) :
    List FailedMessage → Nat → List FailedMessage × Nat
  | [], exhausted =>
    if max_retry_attempts < 1 then ([], exhausted + 1)
    else ([⟨e, 1, now, now⟩], exhausted)
  | fm :: rest, exhausted =>
    if fm.entry.id = e.id then
      if max_retry_attempts < fm.retry_count + 1 then (rest, exhausted + 1)
      else (⟨fm.entry, fm.retry_count + 1, fm.first_failure_time, now⟩ :: rest, exhausted)
    else
      ((fm :: (record_failure max_retry_attempts now e rest exhausted).1),
        (record_failure max_retry_attempts now e rest exhausted).2)

/-- Modelled from the spec (Metrics, missing broker module): the per-queue
counters of one queue. -/
structure Metrics where
  messages_sent : Nat
  messages_failed : Nat
  buffer_overflow_count : Nat
  retry_exhausted_count : Nat
  batch_split_count : Nat
  oversized_message_dropped : Nat
deriving DecidableEq

/-- Modelled from the spec (section 4.I, missing broker module):
`clear_queue_buffer` atomically empties the buffer and the retry queue of
one queue, returns the total number of entries removed, and leaves every
metric untouched.  The per-queue dictionaries are embedded as total
functions from queue names. -/
def clear_queue_buffer (q : String) (buffer : String → List Entry)
    (failed : String → List FailedMessage) (m : Metrics) :
    Nat × (String → List Entry) × (String → List FailedMessage) × Metrics :=
  ((buffer q).length + (failed q).length,
    fun q2 => if q2 = q then [] else buffer q2,
    fun q2 => if q2 = q then [] else failed q2,
    m)

/-- Modelled from the spec (GlobalConfig, missing broker module): the frozen
broker configuration.  Intervals are seconds as rationals; the group
override dictionaries are embedded as association lists. -/
structure BrokerConfig where
  default_batch_interval : ℚ
  default_idle_timeout : ℚ
  batch_size : Nat
  max_buffer_size_per_queue : Nat
  max_retry_attempts : Nat
  group_batch_intervals : List (String × ℚ)
  group_idle_timeouts : List (String × ℚ)
deriving DecidableEq

/-- Modelled from the spec (section 4.J, missing broker module): broker
construction freezes the supplied configuration, hard-clamping the batch
size to the SQS maximum of 10. -/
def mk_broker (default_batch_interval default_idle_timeout : ℚ)
    (batch_size max_buffer_size_per_queue max_retry_attempts : Nat)
    (group_batch_intervals group_idle_timeouts : List (String × ℚ)) :
    BrokerConfig :=
  { default_batch_interval := default_batch_interval
    default_idle_timeout := default_idle_timeout
    batch_size := min batch_size 10
    max_buffer_size_per_queue := max_buffer_size_per_queue
    max_retry_attempts := max_retry_attempts
    group_batch_intervals := group_batch_intervals
    group_idle_timeouts := group_idle_timeouts }

/-- Modelled from the spec (PerQueueConfig, missing broker module): resolve a
per-queue scalar by looking the queue name up in a group override
dictionary and falling back to the default when absent. -/
def lookup_config (overrides : List (String × ℚ)) (default_value : ℚ)
    (q : String) : ℚ :=
  match overrides.lookup q with
  | some v => v
  | none => default_value

/-- Modelled from the spec (section 4.I, missing broker module): the snapshot
returned by `get_queue_status`. -/
structure QueueStatus where
  queue_name : String
  buffer_size : Nat
  failed_message_count : Nat
  batch_interval : ℚ
  idle_timeout : ℚ
deriving DecidableEq

/-- Modelled from the spec (section 4.I, missing broker module):
`get_queue_status` reports the queue name, the buffered and failed counts,
and the per-queue interval and idle timeout resolved through the group
override dictionaries. -/
def get_queue_status (cfg : BrokerConfig) (buffer : String → List Entry)
    (failed : String → List FailedMessage) (q : String) : QueueStatus :=
  { queue_name := q
    buffer_size := (buffer q).length
    failed_message_count := (failed q).length
    batch_interval := lookup_config cfg.group_batch_intervals cfg.default_batch_interval q
    idle_timeout := lookup_config cfg.group_idle_timeouts cfg.default_idle_timeout q }

/-- Modelled from the spec (GlobalConfig): the shutdown join timeout,
5 seconds. -/
def shutdown_join_timeout : ℚ := 5

/-- Modelled from the spec (section 4.J, missing broker module): the
lifecycle-relevant portion of the broker state: the running flag, whether
the background worker is alive, how many times `flush_all` has been called,
and the timeouts passed to the worker joins. -/
structure LifecycleState where
  running : Bool
  thread_alive : Bool
  flush_all_calls : Nat
  join_timeouts : List ℚ
deriving DecidableEq

/-- Modelled from the spec (section 4.J, missing broker module): `close`
clears the running flag, calls `flush_all` once from the caller's context,
and joins the background worker with `shutdown_join_timeout`; the worker
loop exits once the running flag is down, so the thread is no longer alive
afterwards.  Closing an already-closed broker is a no-op. -/
def close_broker (s : LifecycleState) : LifecycleState :=
  if s.running then
    { running := false
      thread_alive := false
      flush_all_calls := s.flush_all_calls + 1
      join_timeouts := s.join_timeouts ++ [shutdown_join_timeout] }
  else s

/-- Modelled from the spec (section 4.H, missing broker module): the scheduler
loop initiates sends only while the running flag is up. -/
def initiates_send (s : LifecycleState) : Bool :=
  s.running

/- Sanity checks mirroring the unit tests in tests/test_batch_broker.py. -/

example : split_oversized_batch [⟨"a", "xx"⟩, ⟨"b", "y"⟩] = ([[⟨"a", "xx"⟩, ⟨"b", "y"⟩]], []) := by
  decide

example :
    retry_failed_messages 3 5000 10 [⟨⟨"t", "b"⟩, 1, 7, 7⟩] [] 0
      = ([], [⟨"t", "b"⟩], 0) := by
  have hb : backoff_elapsed 10 ⟨⟨"t", "b"⟩, 1, 7, 7⟩ = true := by
    simp [backoff_elapsed]
    norm_num
  simp [retry_failed_messages, hb]

example :
    retry_failed_messages 2 5000 10 [⟨⟨"t", "b"⟩, 2, 10, 10⟩] [] 0
      = ([], [], 1) := by
  simp [retry_failed_messages]

example :
    retry_failed_messages 3 5000 10 [⟨⟨"t", "b"⟩, 2, 8, 8⟩] [] 0
      = ([⟨⟨"t", "b"⟩, 2, 8, 8⟩], [], 0) := by
  have hb : backoff_elapsed 10 ⟨⟨"t", "b"⟩, 2, 8, 8⟩ = false := by
    simp [backoff_elapsed]
    norm_num
  simp [retry_failed_messages, hb]

/- Helper lemmas about the splitting loop. -/

theorem check_message_size_false_of_over {e : Entry}
    (h : max_entry_bytes < entry_bytes e) : check_message_size e = false := by
  simp only [check_message_size, decide_eq_false_iff_not, not_le]
  exact h

theorem check_message_size_true_of_le {e : Entry}
    (h : ¬ max_entry_bytes < entry_bytes e) : check_message_size e = true := by
  simp only [check_message_size, decide_eq_true_eq]
  omega

theorem split_go_snd (rest : List Entry) :
    ∀ current cur_bytes batches oversized,
      (split_go rest current cur_bytes batches oversized).2
        = oversized ++ rest.filter (fun e => !check_message_size e) := by
  induction rest with
  | nil =>
    intro current cur_bytes batches oversized
    by_cases hc : current = [] <;> simp [split_go, hc]
  | cons e rest ih =>
    intro current cur_bytes batches oversized
    by_cases h : max_entry_bytes < entry_bytes e
    · simp [split_go, h, ih, check_message_size_false_of_over h]
    · by_cases h2 : current.length = 10 ∨ max_batch_bytes < cur_bytes + entry_bytes e
      · simp [split_go, h, h2, ih, check_message_size_true_of_le h]
      · simp [split_go, h, h2, ih, check_message_size_true_of_le h]

theorem split_go_fst_flatten (rest : List Entry) :
    ∀ current cur_bytes batches oversized,
      (split_go rest current cur_bytes batches oversized).1.flatten
        = batches.flatten ++ current ++ rest.filter (fun e => check_message_size e) := by
  induction rest with
  | nil =>
    intro current cur_bytes batches oversized
    by_cases hc : current = [] <;> simp [split_go, hc]
  | cons e rest ih =>
    intro current cur_bytes batches oversized
    by_cases h : max_entry_bytes < entry_bytes e
    · simp [split_go, h, ih, check_message_size_false_of_over h]
    · by_cases h2 : current.length = 10 ∨ max_batch_bytes < cur_bytes + entry_bytes e
      · simp [split_go, h, h2, ih, check_message_size_true_of_le h]
      · simp [split_go, h, h2, ih, check_message_size_true_of_le h]

theorem split_go_batches_bounded (rest : List Entry) :
    ∀ current cur_bytes batches oversized,
      cur_bytes = (current.map entry_bytes).sum →
      current.length ≤ 10 →
      cur_bytes ≤ max_batch_bytes →
      (∀ b ∈ batches, b.length ≤ 10 ∧ (b.map entry_bytes).sum ≤ max_batch_bytes) →
      ∀ b ∈ (split_go rest current cur_bytes batches oversized).1,
        b.length ≤ 10 ∧ (b.map entry_bytes).sum ≤ max_batch_bytes := by
  induction rest with
  | nil =>
    intro current cur_bytes batches oversized hbytes hlen hcap hb b hmem
    by_cases hc : current = []
    · simp [split_go, hc] at hmem
      exact hb b hmem
    · simp [split_go, hc] at hmem
      rcases hmem with hmem | rfl
      · exact hb b hmem
      · exact ⟨hlen, hbytes ▸ hcap⟩
  | cons e rest ih =>
    intro current cur_bytes batches oversized hbytes hlen hcap hb b hmem
    by_cases h : max_entry_bytes < entry_bytes e
    · rw [split_go] at hmem
      simp only [if_pos h] at hmem
      exact ih current cur_bytes batches _ hbytes hlen hcap hb b hmem
    · by_cases h2 : current.length = 10 ∨ max_batch_bytes < cur_bytes + entry_bytes e
      · rw [split_go] at hmem
        simp only [if_neg h, if_pos h2] at hmem
        refine ih [e] (entry_bytes e) (batches ++ [current]) oversized (by simp) (by simp) ?_ ?_ b hmem
        · have : entry_bytes e ≤ max_entry_bytes := by omega
          simpa [entry_bytes] using le_trans this (by simp [max_entry_bytes, max_batch_bytes])
        · intro b2 hb2
          rcases List.mem_append.1 hb2 with hb2 | hb2
          · exact hb b2 hb2
          · simp at hb2
            subst hb2
            exact ⟨hlen, hbytes ▸ hcap⟩
      · rw [split_go] at hmem
        simp only [if_neg h, if_neg h2] at hmem
        push_neg at h2
        refine ih (current ++ [e]) (cur_bytes + entry_bytes e) batches oversized ?_ ?_ ?_ hb b hmem
        · simp [hbytes]
        · have : current.length ≠ 10 := h2.1
          simp
          omega
        · exact le_of_not_lt (fun hlt => absurd hlt (not_lt.2 h2.2))

theorem split_go_batches_sendable (rest : List Entry) :
    ∀ current cur_bytes batches oversized,
      (∀ a ∈ current, check_message_size a = true) →
      (∀ b ∈ batches, ∀ a ∈ b, check_message_size a = true) →
      ∀ b ∈ (split_go rest current cur_bytes batches oversized).1,
        ∀ a ∈ b, check_message_size a = true := by
  induction rest with
  | nil =>
    intro current cur_bytes batches oversized hcur hb b hmem
    by_cases hc : current = []
    · simp [split_go, hc] at hmem
      exact hb b hmem
    · simp [split_go, hc] at hmem
      rcases hmem with hmem | rfl
      · exact hb b hmem
      · exact hcur
  | cons e rest ih =>
    intro current cur_bytes batches oversized hcur hb b hmem
    by_cases h : max_entry_bytes < entry_bytes e
    · rw [split_go] at hmem
      simp only [if_pos h] at hmem
      exact ih current cur_bytes batches _ hcur hb b hmem
    · by_cases h2 : current.length = 10 ∨ max_batch_bytes < cur_bytes + entry_bytes e
      · rw [split_go] at hmem
        simp only [if_neg h, if_pos h2] at hmem
        refine ih [e] (entry_bytes e) (batches ++ [current]) oversized ?_ ?_ b hmem
        · intro a ha
          simp at ha
          subst ha
          exact check_message_size_true_of_le h
        · intro b2 hb2
          rcases List.mem_append.1 hb2 with hb2 | hb2
          · exact hb b2 hb2
          · simp at hb2
            subst hb2
            exact hcur
      · rw [split_go] at hmem
        simp only [if_neg h, if_neg h2] at hmem
        refine ih (current ++ [e]) (cur_bytes + entry_bytes e) batches oversized ?_ hb b hmem
        intro a ha
        rcases List.mem_append.1 ha with ha | ha
        · exact hcur a ha
        · simp at ha
          subst ha
          exact check_message_size_true_of_le h

theorem utf8Len_replicate (n : Nat) (c : Char) :
    String.utf8Len (List.replicate n c) = n * c.utf8Size := by
  induction n with
  | zero => simp
  | succ n ih => simp [List.replicate_succ, ih, Nat.succ_mul, Nat.add_comm]

theorem entry_bytes_mk_replicate (i : String) (n : Nat) :
    entry_bytes ⟨i, ⟨List.replicate n 'x'⟩⟩ = n := by
  have hx : Char.utf8Size 'x' = 1 := by decide
  simp [entry_bytes, String.utf8ByteSize_mk, utf8Len_replicate, hx]

/-- C1: for every ordered list of entries handed to `_split_oversized_batch`,
the outputs partition the input: the sub-batches flatten to exactly the
entries that pass the per-entry size check, in input order, the oversized
output collects exactly the rest, and every sub-batch has at most 10 entries
and at most 256·1024 total UTF-8 body bytes. -/
theorem split_oversized_batch_partitions (entries : List Entry) :
    (split_oversized_batch entries).1.flatten
        = entries.filter (fun e => check_message_size e)
    ∧ (split_oversized_batch entries).2
        = entries.filter (fun e => !check_message_size e)
    ∧ ∀ b ∈ (split_oversized_batch entries).1,
        b.length ≤ 10 ∧ (b.map entry_bytes).sum ≤ 256 * 1024 := by
  refine ⟨?_, ?_, ?_⟩
  · simpa using split_go_fst_flatten entries [] 0 [] []
  · simpa using split_go_snd entries [] 0 [] []
  · intro b hb
    have h := split_go_batches_bounded entries [] 0 [] [] (by simp) (by simp)
      (Nat.zero_le _) (by simp) b hb
    simpa [max_batch_bytes] using h

/-- Witness for C1: a concrete two-entry input, the sub-batch containing both
entries, and the bounds evaluated there. -/
theorem split_oversized_batch_partitions_witness :
    [Entry.mk "a" "xx", Entry.mk "b" "y"] ∈
        (split_oversized_batch [Entry.mk "a" "xx", Entry.mk "b" "y"]).1
    ∧ ([Entry.mk "a" "xx", Entry.mk "b" "y"].length ≤ 10
        ∧ ([Entry.mk "a" "xx", Entry.mk "b" "y"].map entry_bytes).sum ≤ 256 * 1024) :=
  ⟨by decide,
    (split_oversized_batch_partitions [Entry.mk "a" "xx", Entry.mk "b" "y"]).2.2 _ (by decide)⟩

/-- C5: an entry passes `_check_message_size` exactly when its encoded byte
size is at most 256·1024, the splitter routes exactly the failing entries to
its oversized output, and every entry of every sub-batch passes the check,
so an oversized entry never appears in a sub-batch. -/
theorem check_message_size_boundary (e : Entry) (entries : List Entry) :
    (check_message_size e = true ↔ entry_bytes e ≤ 256 * 1024)
    ∧ (split_oversized_batch entries).2
        = entries.filter (fun a => !check_message_size a)
    ∧ ∀ b ∈ (split_oversized_batch entries).1,
        ∀ a ∈ b, check_message_size a = true := by
  refine ⟨?_, ?_, ?_⟩
  · simp [check_message_size, max_entry_bytes]
  · simpa using split_go_snd entries [] 0 [] []
  · exact fun b hb => split_go_batches_sendable entries [] 0 [] [] (by simp) (by simp) b hb

/-- Witness for C5: a body of exactly 262144 bytes passes the size check, one
of 262145 bytes fails it, and on a concrete input the sub-batch entry passes
the check. -/
theorem check_message_size_boundary_witness :
    check_message_size ⟨"pass", ⟨List.replicate (256 * 1024) 'x'⟩⟩ = true
    ∧ check_message_size ⟨"fail", ⟨List.replicate (256 * 1024 + 1) 'x'⟩⟩ = false
    ∧ [Entry.mk "a" "xx"] ∈ (split_oversized_batch [Entry.mk "a" "xx"]).1
    ∧ check_message_size (Entry.mk "a" "xx") = true := by
  refine ⟨?_, ?_, by decide, ?_⟩
  · exact (check_message_size_boundary _ []).1.mpr (le_of_eq (entry_bytes_mk_replicate _ _))
  · cases hc : check_message_size ⟨"fail", ⟨List.replicate (256 * 1024 + 1) 'x'⟩⟩ with
    | false => rfl
    | true =>
      exact absurd ((check_message_size_boundary _ []).1.mp hc)
        (by rw [entry_bytes_mk_replicate]; omega)
  · exact (check_message_size_boundary (Entry.mk "a" "xx") [Entry.mk "a" "xx"]).2.2
      [Entry.mk "a" "xx"] (by decide) (Entry.mk "a" "xx") (by decide)

/- Helper lemmas about the retry scan. -/

theorem retry_buffer_extends (mra cap : Nat) (now : ℚ) (failed : List FailedMessage) :
    ∀ buffer x, ∃ p : List Entry,
      (retry_failed_messages mra cap now failed buffer x).2.1 = buffer ++ p
      ∧ ∀ e ∈ p, ∃ fm, fm ∈ failed ∧ fm.entry = e ∧ fm.retry_count < mra
          ∧ backoff_elapsed now fm = true := by
  induction failed with
  | nil =>
    intro buffer x
    exact ⟨[], by simp [retry_failed_messages], by simp⟩
  | cons fm rest ih =>
    intro buffer x
    by_cases h1 : mra ≤ fm.retry_count
    · obtain ⟨p, hp, hprov⟩ := ih buffer (x + 1)
      refine ⟨p, ?_, ?_⟩
      · rw [retry_failed_messages, if_pos h1]
        exact hp
      · intro e he
        obtain ⟨fm2, hmem, hrest⟩ := hprov e he
        exact ⟨fm2, List.mem_cons_of_mem _ hmem, hrest⟩
    · by_cases h2 : backoff_elapsed now fm = true
      · by_cases h3 : buffer.length < cap
        · obtain ⟨p, hp, hprov⟩ := ih (buffer ++ [fm.entry]) x
          refine ⟨fm.entry :: p, ?_, ?_⟩
          · rw [retry_failed_messages, if_neg h1, if_pos h2, if_pos h3, hp]
            simp
          · intro e he
            rcases List.mem_cons.1 he with rfl | he
            · exact ⟨fm, List.mem_cons_self _ _, rfl, Nat.lt_of_not_le h1, h2⟩
            · obtain ⟨fm2, hmem, hrest⟩ := hprov e he
              exact ⟨fm2, List.mem_cons_of_mem _ hmem, hrest⟩
        · obtain ⟨p, hp, hprov⟩ := ih buffer x
          refine ⟨p, ?_, ?_⟩
          · rw [retry_failed_messages, if_neg h1, if_pos h2, if_neg h3]
            exact hp
          · intro e he
            obtain ⟨fm2, hmem, hrest⟩ := hprov e he
            exact ⟨fm2, List.mem_cons_of_mem _ hmem, hrest⟩
      · obtain ⟨p, hp, hprov⟩ := ih buffer x
        refine ⟨p, ?_, ?_⟩
        · rw [retry_failed_messages, if_neg h1, if_neg h2]
          exact hp
        · intro e he
          obtain ⟨fm2, hmem, hrest⟩ := hprov e he
          exact ⟨fm2, List.mem_cons_of_mem _ hmem, hrest⟩

theorem retry_kept_sub (mra cap : Nat) (now : ℚ) (failed : List FailedMessage) :
    ∀ buffer x, ∀ fm ∈ (retry_failed_messages mra cap now failed buffer x).1,
      fm ∈ failed ∧ fm.retry_count < mra := by
  induction failed with
  | nil =>
    intro buffer x fm hmem
    rw [retry_failed_messages] at hmem
    simp at hmem
  | cons fm0 rest ih =>
    intro buffer x fm hmem
    by_cases h1 : mra ≤ fm0.retry_count
    · rw [retry_failed_messages, if_pos h1] at hmem
      obtain ⟨hmem, hlt⟩ := ih buffer (x + 1) fm hmem
      exact ⟨List.mem_cons_of_mem _ hmem, hlt⟩
    · by_cases h2 : backoff_elapsed now fm0 = true
      · by_cases h3 : buffer.length < cap
        · rw [retry_failed_messages, if_neg h1, if_pos h2, if_pos h3] at hmem
          obtain ⟨hmem, hlt⟩ := ih (buffer ++ [fm0.entry]) x fm hmem
          exact ⟨List.mem_cons_of_mem _ hmem, hlt⟩
        · rw [retry_failed_messages, if_neg h1, if_pos h2, if_neg h3] at hmem
          rcases List.mem_cons.1 hmem with rfl | hmem
          · exact ⟨List.mem_cons_self _ _, Nat.lt_of_not_le h1⟩
          · obtain ⟨hmem, hlt⟩ := ih buffer x fm hmem
            exact ⟨List.mem_cons_of_mem _ hmem, hlt⟩
      · rw [retry_failed_messages, if_neg h1, if_neg h2] at hmem
        rcases List.mem_cons.1 hmem with rfl | hmem
        · exact ⟨List.mem_cons_self _ _, Nat.lt_of_not_le h1⟩
        · obtain ⟨hmem, hlt⟩ := ih buffer x fm hmem
          exact ⟨List.mem_cons_of_mem _ hmem, hlt⟩

theorem retry_exhausted_counts (mra cap : Nat) (now : ℚ) (failed : List FailedMessage) :
    ∀ buffer x, (retry_failed_messages mra cap now failed buffer x).2.2
      = x + failed.countP (fun fm => decide (mra ≤ fm.retry_count)) := by
  induction failed with
  | nil =>
    intro buffer x
    simp [retry_failed_messages]
  | cons fm0 rest ih =>
    intro buffer x
    by_cases h1 : mra ≤ fm0.retry_count
    · rw [retry_failed_messages, if_pos h1, ih buffer (x + 1)]
      simp [List.countP_cons, h1]
      omega
    · by_cases h2 : backoff_elapsed now fm0 = true
      · by_cases h3 : buffer.length < cap
        · rw [retry_failed_messages, if_neg h1, if_pos h2, if_pos h3, ih _ x]
          simp [List.countP_cons, h1]
        · rw [retry_failed_messages, if_neg h1, if_pos h2, if_neg h3]
          simp only []
          rw [ih buffer x]
          simp [List.countP_cons, h1]
      · rw [retry_failed_messages, if_neg h1, if_neg h2]
        simp only []
        rw [ih buffer x]
        simp [List.countP_cons, h1]

theorem retry_keeps_ineligible (mra cap : Nat) (now : ℚ) (failed : List FailedMessage) :
    ∀ buffer x, ∀ fm ∈ failed, fm.retry_count < mra → backoff_elapsed now fm = false →
      fm ∈ (retry_failed_messages mra cap now failed buffer x).1 := by
  induction failed with
  | nil =>
    intro buffer x fm hmem
    simp at hmem
  | cons fm0 rest ih =>
    intro buffer x fm hmem hlt hback
    by_cases heq : fm0 = fm
    · subst heq
      have h1 : ¬ mra ≤ fm0.retry_count := Nat.not_le_of_lt hlt
      have h2 : ¬ backoff_elapsed now fm0 = true := by simp [hback]
      rw [retry_failed_messages, if_neg h1, if_neg h2]
      exact List.mem_cons_self _ _
    · have hmem2 : fm ∈ rest := by
        rcases List.mem_cons.1 hmem with rfl | hmem2
        · exact absurd rfl heq
        · exact hmem2
      by_cases h1 : mra ≤ fm0.retry_count
      · rw [retry_failed_messages, if_pos h1]
        exact ih buffer (x + 1) fm hmem2 hlt hback
      · by_cases h2 : backoff_elapsed now fm0 = true
        · by_cases h3 : buffer.length < cap
          · rw [retry_failed_messages, if_neg h1, if_pos h2, if_pos h3]
            exact ih _ x fm hmem2 hlt hback
          · rw [retry_failed_messages, if_neg h1, if_pos h2, if_neg h3]
            exact List.mem_cons_of_mem _ (ih buffer x fm hmem2 hlt hback)
        · rw [retry_failed_messages, if_neg h1, if_neg h2]
          exact List.mem_cons_of_mem _ (ih buffer x fm hmem2 hlt hback)

theorem retry_promotes_under_room (mra cap : Nat) (now : ℚ) (failed : List FailedMessage) :
    ∀ buffer x, buffer.length + failed.length ≤ cap →
      ∀ fm ∈ failed, fm.retry_count < mra → backoff_elapsed now fm = true →
        fm ∉ (retry_failed_messages mra cap now failed buffer x).1
        ∧ fm.entry ∈ (retry_failed_messages mra cap now failed buffer x).2.1 := by
  induction failed with
  | nil =>
    intro buffer x hroom fm hmem
    simp at hmem
  | cons fm0 rest ih =>
    intro buffer x hroom fm hmem hlt hback
    by_cases h1 : mra ≤ fm0.retry_count
    · rw [retry_failed_messages, if_pos h1]
      have hmem2 : fm ∈ rest := by
        rcases List.mem_cons.1 hmem with rfl | hmem2
        · exact absurd h1 (Nat.not_le_of_lt hlt)
        · exact hmem2
      exact ih buffer (x + 1) (by simp at hroom ⊢; omega) fm hmem2 hlt hback
    · by_cases h2 : backoff_elapsed now fm0 = true
      · have h3 : buffer.length < cap := by
          simp at hroom
          omega
        rw [retry_failed_messages, if_neg h1, if_pos h2, if_pos h3]
        have hroom2 : (buffer ++ [fm0.entry]).length + rest.length ≤ cap := by
          simp at hroom ⊢
          omega
        by_cases heq : fm ∈ rest
        · exact ih _ x hroom2 fm heq hlt hback
        · have hfm : fm0 = fm := by
            rcases List.mem_cons.1 hmem with rfl | hmem2
            · rfl
            · exact absurd hmem2 heq
          subst hfm
          constructor
          · intro hcontra
            exact absurd (retry_kept_sub mra cap now rest _ x fm0 hcontra).1 heq
          · obtain ⟨p, hp, _⟩ := retry_buffer_extends mra cap now rest (buffer ++ [fm0.entry]) x
            rw [hp]
            simp
      · have hmem2 : fm ∈ rest := by
          rcases List.mem_cons.1 hmem with rfl | hmem2
          · exact absurd hback (by simp [h2])
          · exact hmem2
        rw [retry_failed_messages, if_neg h1, if_neg h2]
        have hrec := ih buffer x (by simp at hroom ⊢; omega) fm hmem2 hlt hback
        constructor
        · intro hcontra
          rcases List.mem_cons.1 hcontra with rfl | hcontra
          · exact absurd hback (by simp [h2])
          · exact hrec.1 hcontra
        · exact hrec.2

theorem retry_remain_or_promote (mra cap : Nat) (now : ℚ) (failed : List FailedMessage) :
    ∀ buffer x, ∀ fm ∈ failed, fm.retry_count < mra →
      fm ∈ (retry_failed_messages mra cap now failed buffer x).1
      ∨ fm.entry ∈ (retry_failed_messages mra cap now failed buffer x).2.1 := by
  induction failed with
  | nil =>
    intro buffer x fm hmem
    simp at hmem
  | cons fm0 rest ih =>
    intro buffer x fm hmem hlt
    by_cases h1 : mra ≤ fm0.retry_count
    · rw [retry_failed_messages, if_pos h1]
      have hmem2 : fm ∈ rest := by
        rcases List.mem_cons.1 hmem with rfl | hmem2
        · exact absurd h1 (Nat.not_le_of_lt hlt)
        · exact hmem2
      exact ih buffer (x + 1) fm hmem2 hlt
    · by_cases h2 : backoff_elapsed now fm0 = true
      · by_cases h3 : buffer.length < cap
        · rw [retry_failed_messages, if_neg h1, if_pos h2, if_pos h3]
          rcases List.mem_cons.1 hmem with rfl | hmem2
          · right
            obtain ⟨p, hp, _⟩ := retry_buffer_extends mra cap now rest (buffer ++ [fm.entry]) x
            rw [hp]
            simp
          · exact ih _ x fm hmem2 hlt
        · rw [retry_failed_messages, if_neg h1, if_pos h2, if_neg h3]
          rcases List.mem_cons.1 hmem with rfl | hmem2
          · exact Or.inl (List.mem_cons_self _ _)
          · rcases ih buffer x fm hmem2 hlt with hk | hp2
            · exact Or.inl (List.mem_cons_of_mem _ hk)
            · exact Or.inr hp2
      · rw [retry_failed_messages, if_neg h1, if_neg h2]
        rcases List.mem_cons.1 hmem with rfl | hmem2
        · exact Or.inl (List.mem_cons_self _ _)
        · rcases ih buffer x fm hmem2 hlt with hk | hp2
          · exact Or.inl (List.mem_cons_of_mem _ hk)
          · exact Or.inr hp2

/-- C2 counterexample: with `max_retry_attempts = 2`, a FailedMessage whose
retry_count equals 2 (so `retry_count ≤ max_retry_attempts`) is removed from
the retry queue and counted exhausted by the scan, refuting "dropped exactly
when retry_count exceeds max_retry_attempts; every FailedMessage with
retry_count ≤ max_retry_attempts remains". -/
theorem retry_at_max_dropped_counterexample :
    (⟨⟨"t", "b"⟩, 2, 0, 0⟩ : FailedMessage).retry_count ≤ 2
    ∧ (retry_failed_messages 2 5000 0 [⟨⟨"t", "b"⟩, 2, 0, 0⟩] [] 0).1 = []
    ∧ (retry_failed_messages 2 5000 0 [⟨⟨"t", "b"⟩, 2, 0, 0⟩] [] 0).2.2 = 1 := by
  refine ⟨Nat.le_refl 2, ?_, ?_⟩ <;> simp [retry_failed_messages]

/-- C2 (amended): during a retry scan a FailedMessage is dropped and counted
in `retry_exhausted_count` exactly when its retry_count has reached
`max_retry_attempts`: the exhausted counter grows by exactly the number of
such messages, none of them stays in the retry queue, every message still in
the retry queue afterwards comes from the input with retry_count below the
limit, and every message below the limit either stays in the retry queue or
has its entry promoted into the buffer. -/
theorem retry_drop_iff_reached_max (mra cap : Nat) (now : ℚ)
    (failed : List FailedMessage) (buffer : List Entry) (x : Nat) :
    (retry_failed_messages mra cap now failed buffer x).2.2
      = x + failed.countP (fun fm => decide (mra ≤ fm.retry_count))
    ∧ (∀ fm ∈ failed, mra ≤ fm.retry_count →
        fm ∉ (retry_failed_messages mra cap now failed buffer x).1)
    ∧ (∀ fm ∈ (retry_failed_messages mra cap now failed buffer x).1,
        fm ∈ failed ∧ fm.retry_count < mra)
    ∧ (∀ fm ∈ failed, fm.retry_count < mra →
        fm ∈ (retry_failed_messages mra cap now failed buffer x).1
        ∨ fm.entry ∈ (retry_failed_messages mra cap now failed buffer x).2.1) := by
  refine ⟨retry_exhausted_counts mra cap now failed buffer x, ?_,
    retry_kept_sub mra cap now failed buffer x,
    retry_remain_or_promote mra cap now failed buffer x⟩
  intro fm _ hge hcontra
  exact absurd (retry_kept_sub mra cap now failed buffer x fm hcontra).2 (Nat.not_lt.2 hge)

/-- Witness for the amended C2: a message at the limit is dropped and
counted, one below the limit survives somewhere. -/
theorem retry_drop_iff_reached_max_witness :
    (⟨⟨"t", "b"⟩, 2, 0, 0⟩ : FailedMessage) ∈ [(⟨⟨"t", "b"⟩, 2, 0, 0⟩ : FailedMessage)]
    ∧ (2 : Nat) ≤ (⟨⟨"t", "b"⟩, 2, 0, 0⟩ : FailedMessage).retry_count
    ∧ (⟨⟨"t", "b"⟩, 2, 0, 0⟩ : FailedMessage) ∉
        (retry_failed_messages 2 5000 0 [⟨⟨"t", "b"⟩, 2, 0, 0⟩] [] 0).1
    ∧ ((⟨⟨"u", "c"⟩, 1, 0, 0⟩ : FailedMessage) ∈
          (retry_failed_messages 2 5000 0 [⟨⟨"u", "c"⟩, 1, 0, 0⟩] [] 0).1
        ∨ (⟨⟨"u", "c"⟩, 1, 0, 0⟩ : FailedMessage).entry ∈
          (retry_failed_messages 2 5000 0 [⟨⟨"u", "c"⟩, 1, 0, 0⟩] [] 0).2.1) :=
  ⟨List.mem_cons_self _ _, Nat.le_refl 2,
    (retry_drop_iff_reached_max 2 5000 0 [⟨⟨"t", "b"⟩, 2, 0, 0⟩] [] 0).2.1 _
      (List.mem_cons_self _ _) (Nat.le_refl 2),
    (retry_drop_iff_reached_max 2 5000 0 [⟨⟨"u", "c"⟩, 1, 0, 0⟩] [] 0).2.2.2 _
      (List.mem_cons_self _ _) (Nat.lt_succ_self 1)⟩

/-- C3 counterexample: a FailedMessage whose 2^k backoff has elapsed is not
moved into the buffer when the buffer is already at the cap (cap 1, one
buffered entry): it stays in the retry queue and the buffer is unchanged,
refuting the unconditional "once 2^k seconds have elapsed, the message is
removed from the retry queue and its entry appended to the buffer". -/
theorem retry_backoff_counterexample :
    backoff_elapsed 10 (⟨⟨"t", "b"⟩, 1, 0, 0⟩ : FailedMessage) = true
    ∧ (retry_failed_messages 3 1 10 [⟨⟨"t", "b"⟩, 1, 0, 0⟩] [⟨"b0", "z"⟩] 0).1
        = [⟨⟨"t", "b"⟩, 1, 0, 0⟩]
    ∧ (retry_failed_messages 3 1 10 [⟨⟨"t", "b"⟩, 1, 0, 0⟩] [⟨"b0", "z"⟩] 0).2.1
        = [⟨"b0", "z"⟩] := by
  have hb : backoff_elapsed 10 ⟨⟨"t", "b"⟩, 1, 0, 0⟩ = true := by
    simp [backoff_elapsed]
    norm_num
  refine ⟨hb, ?_, ?_⟩ <;> simp [retry_failed_messages, hb]

/-- C3 (amended): a FailedMessage with retry_count = k is never moved into
the buffer before 2^k seconds have elapsed since its last_failure_time: the
scan only appends to the buffer, every appended entry comes from a message
whose backoff had elapsed and whose retry_count was below the limit, and a
message whose backoff has not elapsed stays in the retry queue.  Once 2^k
seconds have elapsed and retry_count is below `max_retry_attempts`, the
message is removed from the retry queue and its entry appended to the
buffer, provided the buffer cap leaves room for the promotions; entries that
cannot fit remain in the retry queue. -/
theorem retry_backoff_gates_promotion (mra cap : Nat) (now : ℚ)
    (failed : List FailedMessage) (buffer : List Entry) (x : Nat) :
    (∃ p, (retry_failed_messages mra cap now failed buffer x).2.1 = buffer ++ p
        ∧ ∀ e ∈ p, ∃ fm, fm ∈ failed ∧ fm.entry = e ∧ fm.retry_count < mra
            ∧ backoff_elapsed now fm = true)
    ∧ (∀ fm ∈ failed, fm.retry_count < mra → backoff_elapsed now fm = false →
        fm ∈ (retry_failed_messages mra cap now failed buffer x).1)
    ∧ (buffer.length + failed.length ≤ cap →
        ∀ fm ∈ failed, fm.retry_count < mra → backoff_elapsed now fm = true →
          fm ∉ (retry_failed_messages mra cap now failed buffer x).1
          ∧ fm.entry ∈ (retry_failed_messages mra cap now failed buffer x).2.1) :=
  ⟨retry_buffer_extends mra cap now failed buffer x,
    retry_keeps_ineligible mra cap now failed buffer x,
    retry_promotes_under_room mra cap now failed buffer x⟩

/-- Witness for the amended C3: with 2 seconds elapsed of a 4-second backoff
the message stays queued; with 3 seconds elapsed of a 2-second backoff and a
roomy buffer it is promoted. -/
theorem retry_backoff_gates_promotion_witness :
    backoff_elapsed 10 (⟨⟨"t", "b"⟩, 2, 8, 8⟩ : FailedMessage) = false
    ∧ (⟨⟨"t", "b"⟩, 2, 8, 8⟩ : FailedMessage) ∈
        (retry_failed_messages 3 5000 10 [⟨⟨"t", "b"⟩, 2, 8, 8⟩] [] 0).1
    ∧ backoff_elapsed 10 (⟨⟨"u", "c"⟩, 1, 7, 7⟩ : FailedMessage) = true
    ∧ (⟨⟨"u", "c"⟩, 1, 7, 7⟩ : FailedMessage) ∉
        (retry_failed_messages 3 5000 10 [⟨⟨"u", "c"⟩, 1, 7, 7⟩] [] 0).1
    ∧ (⟨⟨"u", "c"⟩, 1, 7, 7⟩ : FailedMessage).entry ∈
        (retry_failed_messages 3 5000 10 [⟨⟨"u", "c"⟩, 1, 7, 7⟩] [] 0).2.1 := by
  have hb1 : backoff_elapsed 10 (⟨⟨"t", "b"⟩, 2, 8, 8⟩ : FailedMessage) = false := by
    simp [backoff_elapsed]
    norm_num
  have hb2 : backoff_elapsed 10 (⟨⟨"u", "c"⟩, 1, 7, 7⟩ : FailedMessage) = true := by
    simp [backoff_elapsed]
    norm_num
  have hkeep := (retry_backoff_gates_promotion 3 5000 10 [⟨⟨"t", "b"⟩, 2, 8, 8⟩] [] 0).2.1 _
    (List.mem_cons_self _ _) (by decide) hb1
  have hprom := (retry_backoff_gates_promotion 3 5000 10 [⟨⟨"u", "c"⟩, 1, 7, 7⟩] [] 0).2.2
    (by simp) _ (List.mem_cons_self _ _) (by decide) hb2
  exact ⟨hb1, hkeep, hb2, hprom.1, hprom.2⟩

/-- C10: during every retry scan, a FailedMessage whose retry_count has
reached `max_retry_attempts` is dropped in that scan itself, with the
exhausted counter strictly increased, whether or not its 2^retry_count
backoff has elapsed; the buffer receives entries only from messages below
the limit. -/
theorem retry_drops_at_max_before_backoff (mra cap : Nat) (now : ℚ)
    (failed : List FailedMessage) (buffer : List Entry) (x : Nat)
    (fm : FailedMessage) (hmem : fm ∈ failed) (hge : mra ≤ fm.retry_count) :
    fm ∉ (retry_failed_messages mra cap now failed buffer x).1
    ∧ x < (retry_failed_messages mra cap now failed buffer x).2.2
    ∧ ∀ e ∈ (retry_failed_messages mra cap now failed buffer x).2.1,
        e ∈ buffer ∨ ∃ fm2, fm2 ∈ failed ∧ fm2.entry = e ∧ fm2.retry_count < mra := by
  refine ⟨?_, ?_, ?_⟩
  · intro hcontra
    exact absurd (retry_kept_sub mra cap now failed buffer x fm hcontra).2 (Nat.not_lt.2 hge)
  · rw [retry_exhausted_counts]
    have hpos : 0 < failed.countP (fun fm2 => decide (mra ≤ fm2.retry_count)) :=
      List.countP_pos_iff.2 ⟨fm, hmem, by simp [hge]⟩
    omega
  · intro e he
    obtain ⟨p, hp, hprov⟩ := retry_buffer_extends mra cap now failed buffer x
    rw [hp] at he
    rcases List.mem_append.1 he with he | he
    · exact Or.inl he
    · obtain ⟨fm2, hm1, hm2, hm3, _⟩ := hprov e he
      exact Or.inr ⟨fm2, hm1, hm2, hm3⟩

/-- Witness for C10: a message at the limit whose backoff has not elapsed is
still dropped and counted in the same scan. -/
theorem retry_drops_at_max_before_backoff_witness :
    backoff_elapsed 0 (⟨⟨"t", "b"⟩, 2, 0, 0⟩ : FailedMessage) = false
    ∧ (⟨⟨"t", "b"⟩, 2, 0, 0⟩ : FailedMessage) ∈ [(⟨⟨"t", "b"⟩, 2, 0, 0⟩ : FailedMessage)]
    ∧ (2 : Nat) ≤ (⟨⟨"t", "b"⟩, 2, 0, 0⟩ : FailedMessage).retry_count
    ∧ (⟨⟨"t", "b"⟩, 2, 0, 0⟩ : FailedMessage) ∉
        (retry_failed_messages 2 5000 0 [⟨⟨"t", "b"⟩, 2, 0, 0⟩] [] 0).1
    ∧ 0 < (retry_failed_messages 2 5000 0 [⟨⟨"t", "b"⟩, 2, 0, 0⟩] [] 0).2.2 := by
  have h := retry_drops_at_max_before_backoff 2 5000 0 [⟨⟨"t", "b"⟩, 2, 0, 0⟩] [] 0
    ⟨⟨"t", "b"⟩, 2, 0, 0⟩ (List.mem_cons_self _ _) (Nat.le_refl 2)
  refine ⟨?_, List.mem_cons_self _ _, Nat.le_refl 2, h.1, h.2.1⟩
  simp [backoff_elapsed]

/-- C4: when an entry fails for the first time (no message with its id is in
the retry queue) and retries are enabled, the recorded FailedMessage has
retry_count = 1, counting the just-happened failure, and its backoff gate
opens exactly 2^1 = 2 seconds after the failure time. -/
theorem first_failure_records_retry_count_one (mra : Nat) (now : ℚ) (e : Entry)
    (failed : List FailedMessage) (x : Nat)
    (hnew : ∀ fm ∈ failed, fm.entry.id ≠ e.id) (hmax : 1 ≤ mra) :
    record_failure mra now e failed x = (failed ++ [⟨e, 1, now, now⟩], x)
    ∧ (∀ t : ℚ, t - now < 2 → backoff_elapsed t ⟨e, 1, now, now⟩ = false)
    ∧ (∀ t : ℚ, 2 ≤ t - now → backoff_elapsed t ⟨e, 1, now, now⟩ = true) := by
  refine ⟨?_, ?_, ?_⟩
  · induction failed with
    | nil =>
      rw [record_failure, if_neg (by omega)]
      simp
    | cons fm rest ih =>
      have hne : ¬ fm.entry.id = e.id := hnew fm (List.mem_cons_self _ _)
      have ih2 := ih fun fm2 h => hnew fm2 (List.mem_cons_of_mem _ h)
      rw [record_failure, if_neg hne, ih2]
      simp
  · intro t ht
    simp only [backoff_elapsed, pow_one, decide_eq_false_iff_not, not_le]
    exact ht
  · intro t ht
    simp only [backoff_elapsed, pow_one, decide_eq_true_eq]
    exact ht

/-- Witness for C4: recording a first failure at time 0 yields retry_count 1;
the gate is shut at t = 1 and open at t = 2. -/
theorem first_failure_records_retry_count_one_witness :
    record_failure 3 0 ⟨"test", "body"⟩ [] 0 = ([⟨⟨"test", "body"⟩, 1, 0, 0⟩], 0)
    ∧ backoff_elapsed 1 (⟨⟨"test", "body"⟩, 1, 0, 0⟩ : FailedMessage) = false
    ∧ backoff_elapsed 2 (⟨⟨"test", "body"⟩, 1, 0, 0⟩ : FailedMessage) = true := by
  have h := first_failure_records_retry_count_one 3 0 ⟨"test", "body"⟩ [] 0
    (by simp) (by omega)
  refine ⟨?_, h.2.1 1 (by norm_num), h.2.2 2 (by norm_num)⟩
  simpa using h.1

/-- C6: broker construction clamps the effective batch size to the SQS
maximum of 10 for every requested value; requesting 20 yields exactly 10. -/
theorem batch_size_clamped_to_10 (dbi dit : ℚ) (bs cap mra : Nat)
    (gbi git : List (String × ℚ)) :
    (mk_broker dbi dit bs cap mra gbi git).batch_size ≤ 10
    ∧ (mk_broker 1 (1 / 10) 20 5000 3 [] []).batch_size = 10 :=
  ⟨min_le_right bs 10, by decide⟩

/-- C7: clear_queue_buffer returns the number of buffered plus failed
messages of the queue, empties both collections for that queue, leaves every
other queue untouched, and changes no metric counter. -/
theorem clear_queue_buffer_spec (q : String) (buffer : String → List Entry)
    (failed : String → List FailedMessage) (m : Metrics) :
    (clear_queue_buffer q buffer failed m).1 = (buffer q).length + (failed q).length
    ∧ (clear_queue_buffer q buffer failed m).2.1 q = []
    ∧ (clear_queue_buffer q buffer failed m).2.2.1 q = []
    ∧ (∀ q2, q2 ≠ q → (clear_queue_buffer q buffer failed m).2.1 q2 = buffer q2
        ∧ (clear_queue_buffer q buffer failed m).2.2.1 q2 = failed q2)
    ∧ (clear_queue_buffer q buffer failed m).2.2.2 = m := by
  refine ⟨rfl, by simp [clear_queue_buffer], by simp [clear_queue_buffer], ?_, rfl⟩
  intro q2 hq2
  constructor <;> simp [clear_queue_buffer, hq2]

/-- Witness for C7: two buffered entries and one failed message give a count
of 3, the queue's collections end empty, another queue is untouched, and the
metrics value is returned unchanged. -/
theorem clear_queue_buffer_spec_witness :
    (clear_queue_buffer "test_queue"
        (fun q2 => if q2 = "test_queue" then [⟨"1", "test1"⟩, ⟨"2", "test2"⟩] else [])
        (fun q2 => if q2 = "test_queue" then [⟨⟨"3", "failed"⟩, 0, 0, 0⟩] else [])
        ⟨0, 0, 0, 0, 0, 0⟩).1 = 3
    ∧ (clear_queue_buffer "test_queue"
        (fun q2 => if q2 = "test_queue" then [⟨"1", "test1"⟩, ⟨"2", "test2"⟩] else [])
        (fun q2 => if q2 = "test_queue" then [⟨⟨"3", "failed"⟩, 0, 0, 0⟩] else [])
        ⟨0, 0, 0, 0, 0, 0⟩).2.1 "test_queue" = []
    ∧ (clear_queue_buffer "test_queue"
        (fun q2 => if q2 = "test_queue" then [⟨"1", "test1"⟩, ⟨"2", "test2"⟩] else [])
        (fun q2 => if q2 = "test_queue" then [⟨⟨"3", "failed"⟩, 0, 0, 0⟩] else [])
        ⟨0, 0, 0, 0, 0, 0⟩).2.2.1 "test_queue" = []
    ∧ ("other" : String) ≠ "test_queue"
    ∧ (clear_queue_buffer "test_queue"
        (fun q2 => if q2 = "test_queue" then [⟨"1", "test1"⟩, ⟨"2", "test2"⟩] else [])
        (fun q2 => if q2 = "test_queue" then [⟨⟨"3", "failed"⟩, 0, 0, 0⟩] else [])
        ⟨0, 0, 0, 0, 0, 0⟩).2.1 "other"
      = (fun q2 => if q2 = "test_queue" then [⟨"1", "test1"⟩, ⟨"2", "test2"⟩] else ([] : List Entry)) "other"
    ∧ (clear_queue_buffer "test_queue"
        (fun q2 => if q2 = "test_queue" then [⟨"1", "test1"⟩, ⟨"2", "test2"⟩] else [])
        (fun q2 => if q2 = "test_queue" then [⟨⟨"3", "failed"⟩, 0, 0, 0⟩] else [])
        ⟨0, 0, 0, 0, 0, 0⟩).2.2.2 = ⟨0, 0, 0, 0, 0, 0⟩ := by
  have h := clear_queue_buffer_spec "test_queue"
    (fun q2 => if q2 = "test_queue" then [⟨"1", "test1"⟩, ⟨"2", "test2"⟩] else [])
    (fun q2 => if q2 = "test_queue" then [⟨⟨"3", "failed"⟩, 0, 0, 0⟩] else [])
    ⟨0, 0, 0, 0, 0, 0⟩
  refine ⟨?_, h.2.1, h.2.2.1, by decide, (h.2.2.2.1 "other" (by decide)).1, h.2.2.2.2⟩
  rw [h.1]
  simp

/-- C8: close clears the running flag, calls flush_all exactly once from the
caller's context, joins the background worker with the 5-second shutdown
timeout, leaves the scheduler dead so that no further sends are initiated,
and a second close is a no-op. -/
theorem close_broker_spec (s : LifecycleState) (h : s.running = true) :
    (close_broker s).running = false
    ∧ (close_broker s).flush_all_calls = s.flush_all_calls + 1
    ∧ (close_broker s).join_timeouts = s.join_timeouts ++ [5]
    ∧ (close_broker s).thread_alive = false
    ∧ initiates_send (close_broker s) = false
    ∧ close_broker (close_broker s) = close_broker s := by
  have hs : close_broker s
      = ⟨false, false, s.flush_all_calls + 1, s.join_timeouts ++ [shutdown_join_timeout]⟩ := by
    simp [close_broker, h]
  refine ⟨by simp [hs], by simp [hs], by simp [hs, shutdown_join_timeout],
    by simp [hs], by simp [initiates_send, hs], ?_⟩
  rw [hs]
  simp [close_broker]

/-- Witness for C8: closing a freshly started broker state. -/
theorem close_broker_spec_witness :
    (⟨true, true, 0, []⟩ : LifecycleState).running = true
    ∧ (close_broker ⟨true, true, 0, []⟩).running = false
    ∧ (close_broker ⟨true, true, 0, []⟩).flush_all_calls = 1
    ∧ (close_broker ⟨true, true, 0, []⟩).join_timeouts = [5]
    ∧ initiates_send (close_broker ⟨true, true, 0, []⟩) = false
    ∧ close_broker (close_broker ⟨true, true, 0, []⟩) = close_broker ⟨true, true, 0, []⟩ := by
  have h := close_broker_spec ⟨true, true, 0, []⟩ rfl
  refine ⟨rfl, h.1, by rw [h.2.1], by rw [h.2.2.1]; simp, h.2.2.2.2.1, h.2.2.2.2.2⟩

/-- C9: get_queue_status resolves the per-queue batch interval and idle
timeout by looking the queue name up in the group override maps and falling
back to the defaults when absent; it is total, so an unrecognized queue name
yields the defaults and never a failure, and it reports the queue's buffered
and failed counts. -/
theorem get_queue_status_resolves (cfg : BrokerConfig) (buffer : String → List Entry)
    (failed : String → List FailedMessage) (q : String) :
    ((cfg.group_batch_intervals.lookup q = none →
        (get_queue_status cfg buffer failed q).batch_interval = cfg.default_batch_interval)
      ∧ ∀ v, cfg.group_batch_intervals.lookup q = some v →
        (get_queue_status cfg buffer failed q).batch_interval = v)
    ∧ ((cfg.group_idle_timeouts.lookup q = none →
        (get_queue_status cfg buffer failed q).idle_timeout = cfg.default_idle_timeout)
      ∧ ∀ v, cfg.group_idle_timeouts.lookup q = some v →
        (get_queue_status cfg buffer failed q).idle_timeout = v)
    ∧ (get_queue_status cfg buffer failed q).queue_name = q
    ∧ (get_queue_status cfg buffer failed q).buffer_size = (buffer q).length
    ∧ (get_queue_status cfg buffer failed q).failed_message_count = (failed q).length := by
  refine ⟨⟨?_, ?_⟩, ⟨?_, ?_⟩, rfl, rfl, rfl⟩
  · intro h
    simp [get_queue_status, lookup_config, h]
  · intro v h
    simp [get_queue_status, lookup_config, h]
  · intro h
    simp [get_queue_status, lookup_config, h]
  · intro v h
    simp [get_queue_status, lookup_config, h]

/-- Witness for C9: with overrides for "test_queue" the status reports them;
for an unknown queue name the defaults are reported. -/
theorem get_queue_status_resolves_witness :
    ([("test_queue", (2 : ℚ))].lookup "test_queue" = some 2)
    ∧ (get_queue_status (mk_broker 1 (1 / 10) 10 5000 3 [("test_queue", 2)] [("test_queue", 1 / 2)])
        (fun _ => []) (fun _ => []) "test_queue").batch_interval = 2
    ∧ (get_queue_status (mk_broker 1 (1 / 10) 10 5000 3 [("test_queue", 2)] [("test_queue", 1 / 2)])
        (fun _ => []) (fun _ => []) "test_queue").idle_timeout = 1 / 2
    ∧ ([("test_queue", (2 : ℚ))].lookup "unknown_queue" = none)
    ∧ (get_queue_status (mk_broker 1 (1 / 10) 10 5000 3 [("test_queue", 2)] [("test_queue", 1 / 2)])
        (fun _ => []) (fun _ => []) "unknown_queue").batch_interval = 1
    ∧ (get_queue_status (mk_broker 1 (1 / 10) 10 5000 3 [("test_queue", 2)] [("test_queue", 1 / 2)])
        (fun _ => []) (fun _ => []) "unknown_queue").idle_timeout = 1 / 10 := by
  refine ⟨rfl, ?_, ?_, rfl, ?_, ?_⟩
  · exact (get_queue_status_resolves
      (mk_broker 1 (1 / 10) 10 5000 3 [("test_queue", 2)] [("test_queue", 1 / 2)])
      (fun _ => []) (fun _ => []) "test_queue").1.2 2 rfl
  · exact (get_queue_status_resolves
      (mk_broker 1 (1 / 10) 10 5000 3 [("test_queue", 2)] [("test_queue", 1 / 2)])
      (fun _ => []) (fun _ => []) "test_queue").2.1.2 (1 / 2) rfl
  · exact (get_queue_status_resolves
      (mk_broker 1 (1 / 10) 10 5000 3 [("test_queue", 2)] [("test_queue", 1 / 2)])
      (fun _ => []) (fun _ => []) "unknown_queue").1.1 rfl
  · exact (get_queue_status_resolves
      (mk_broker 1 (1 / 10) 10 5000 3 [("test_queue", 2)] [("test_queue", 1 / 2)])
      (fun _ => []) (fun _ => []) "unknown_queue").2.1.1 rfl
